import Mathlib

/-!
Shallow embedding of the typing-practice core (`Game` in `src/main.rs`).

The Rust `f32` fields `boss_hp` and `boss_damage` are modelled as exact
rationals (`ℚ`); all other fields keep their source types (`usize` as `Nat`,
`Vec<char>` as `List Char`, `String` as `String`).
-/

/-- The fixed target text, `LYRICS` in the source. -/
def LYRICS : List String :=
  ["동해 물과 백두산이 마르고 닳도록",
   "하느님이 보우하사 우리나라 만세",
   "무궁화 삼천리 화려 강산",
   "대한 사람 대한으로 길이 보전하세"]

/-- Outcome taxonomy of `process_char` (`enum StepResult` in the source). -/
inductive StepResult where
  | Correct
  | Wrong (c : Char)
  | Ignored
  | Victory
  | Restarted
deriving DecidableEq, Repr

/-- Session state (`struct Game` in the source). -/
structure Game where
  text_chars : List Char
  char_meta : List (Nat × Nat)
  total_chars : Nat
  boss_hp : ℚ
  boss_damage : ℚ
  current_index : Nat
  awaiting_restart : Bool
  message : String
deriving DecidableEq, Repr

/-- Rust `Game::new`, with the fixed global `LYRICS` generalized to a parameter
(the source reads the constant directly; passing it explicitly lets the
zero-length degenerate case be examined). -/
def Game.new (lyrics : List String) : Game :=
  let text_chars : List Char := (lyrics.map String.data).flatten
  let char_meta : List (Nat × Nat) :=
    (lyrics.enum.map (fun p => p.2.data.enum.map (fun q => (p.1, q.1)))).flatten
  let total_chars := text_chars.length
  let boss_damage : ℚ := 100 / (total_chars : ℚ)
  { text_chars := text_chars
    char_meta := char_meta
    total_chars := total_chars
    boss_hp := 100
    boss_damage := boss_damage
    current_index := 0
    awaiting_restart := false
    message := "가사를 모두 입력해 보스를 처치하세요." }

/-- Rust `Game::reset`. -/
def Game.reset (g : Game) : Game :=
  { g with
    boss_hp := 100
    current_index := 0
    awaiting_restart := false
    message := "다시 시작했습니다. 계속 입력하세요." }

/-- Rust `Game::expected_char`. -/
def Game.expected_char (g : Game) : Option Char :=
  g.text_chars[g.current_index]?

/-- Rust `Game::is_composing_char`: the four reserved jamo code-point ranges. -/
def Game.is_composing_char (ch : Char) : Bool :=
  let code := ch.toNat
  decide ((0x1100 ≤ code ∧ code ≤ 0x11FF)
    ∨ (0x3130 ≤ code ∧ code ≤ 0x318F)
    ∨ (0xA960 ≤ code ∧ code ≤ 0xA97F)
    ∨ (0xD7B0 ≤ code ∧ code ≤ 0xD7FF))

/-- Rust `char::is_whitespace`: the Unicode `White_Space` property
(the exact code-point set from the Unicode character database). -/
def rustIsWhitespace (ch : Char) : Bool :=
  let c := ch.toNat
  decide (c = 0x09 ∨ c = 0x0A ∨ c = 0x0B ∨ c = 0x0C ∨ c = 0x0D
    ∨ c = 0x20 ∨ c = 0x85 ∨ c = 0xA0 ∨ c = 0x1680
    ∨ (0x2000 ≤ c ∧ c ≤ 0x200A)
    ∨ c = 0x2028 ∨ c = 0x2029 ∨ c = 0x202F ∨ c = 0x205F ∨ c = 0x3000)

/-- Victory status text set by `process_char`. -/
def victoryMessage : String := "승리! 스페이스로 다시 시작합니다."

/-- Rust `Game::process_char`, returning the updated state and the `StepResult`. -/
def Game.process_char (g : Game) (ch : Char) : Game × StepResult :=
  if g.awaiting_restart then
    if ch = ' ' then (g.reset, .Restarted)
    else (g, .Ignored)
  else if ch = '\n' ∨ ch = '\r' then
    (g, .Ignored)
  else
    match g.expected_char with
    | none =>
      ({ g with awaiting_restart := true, message := victoryMessage }, .Victory)
    | some expected =>
      if Game.is_composing_char ch then (g, .Ignored)
      else if rustIsWhitespace ch ∧ ch ≠ ' ' ∧ expected ≠ ' ' then (g, .Ignored)
      else if ch = expected then
        let g' := { g with
          current_index := g.current_index + 1
          boss_hp := max (g.boss_hp - g.boss_damage) 0 }
        if g.current_index + 1 ≥ g.total_chars then
          ({ g' with awaiting_restart := true, message := victoryMessage }, .Victory)
        else
          ({ g' with message := "정확!" }, .Correct)
      else
        ({ g with message := "틀렸습니다." }, .Wrong ch)

/-- Rust `Game::line_state`; like the source it reads the global `LYRICS`. -/
def Game.line_state (g : Game) : Nat × Nat :=
  if g.current_index ≥ g.total_chars then
    let idx := LYRICS.length - 1
    (idx, (LYRICS.getD idx "").data.length)
  else
    g.char_meta.getD g.current_index (0, 0)

/-- Run a list of characters through the session, collecting the results. -/
def runChars : Game → List Char → Game × List StepResult
  | g, [] => (g, [])
  | g, c :: cs =>
    let step := g.process_char c
    let rest := runChars step.1 cs
    (rest.1, step.2 :: rest.2)

/-- The state after submitting a list of characters in order. -/
def applyChars (g : Game) (cs : List Char) : Game :=
  cs.foldl (fun g c => (g.process_char c).1) g

/-- Session states reachable from the fresh session by any sequence of
`process_char` and `reset` calls. -/
inductive Reachable : Game → Prop where
  | init : Reachable (Game.new LYRICS)
  | submit (g : Game) (ch : Char) : Reachable g → Reachable (g.process_char ch).1
  | restart (g : Game) : Reachable g → Reachable g.reset

/-- The state invariant of the session: the script data is the fixed 66-char
text, the cursor stays in bounds, and the restart flag tracks completion. -/
def GoodState (g : Game) : Prop :=
  g.total_chars = 66 ∧ g.text_chars.length = 66 ∧ g.current_index ≤ 66
    ∧ (g.awaiting_restart = true ↔ g.current_index = 66)

/-- C1: submitting the 66 characters of the script in order from the fresh
session yields 65 `Correct` results then `Victory`, the cursor visits
0,1,…,66 one step per submission, and `awaiting_restart` holds afterwards. -/
theorem C1_full_script_run :
    (Game.new LYRICS).text_chars.length = 66
      ∧ 0 < (Game.new LYRICS).text_chars.length
      ∧ (runChars (Game.new LYRICS) (Game.new LYRICS).text_chars).2
          = List.replicate 65 StepResult.Correct ++ [StepResult.Victory]
      ∧ (List.range 67).map
          (fun k => (applyChars (Game.new LYRICS)
            ((Game.new LYRICS).text_chars.take k)).current_index)
          = List.range 67
      ∧ (runChars (Game.new LYRICS) (Game.new LYRICS).text_chars).1.awaiting_restart = true := by
  decide

/-- C2: `process_char` is total and always reports exactly one of the five
outcomes; a `Wrong` outcome always carries the submitted character. -/
theorem C2_submit_total (g : Game) (ch : Char) :
    (g.process_char ch).2 = StepResult.Correct
      ∨ (g.process_char ch).2 = StepResult.Wrong ch
      ∨ (g.process_char ch).2 = StepResult.Ignored
      ∨ (g.process_char ch).2 = StepResult.Victory
      ∨ (g.process_char ch).2 = StepResult.Restarted := by
  unfold Game.process_char
  repeat' split
  all_goals simp

/-- C4: whenever `process_char` reports `Wrong c`, the carried character `c`
is the submitted character, and the state is unchanged except for the status
message (cursor, health and the restart flag are untouched). -/
theorem C4_wrong_frame (g : Game) (ch c : Char)
    (h : (g.process_char ch).2 = StepResult.Wrong c) :
    c = ch ∧ (g.process_char ch).1 = { g with message := "틀렸습니다." } := by
  revert h
  unfold Game.process_char
  repeat' split
  all_goals intro h
  all_goals simp_all

/-- C4 witness: submitting `x` against expected `동` is `Wrong x` and only
the message changes. -/
theorem C4_wrong_frame_witness :
    ('x' : Char) = 'x' ∧ ((Game.new LYRICS).process_char 'x').1
      = { Game.new LYRICS with message := "틀렸습니다." } :=
  C4_wrong_frame (Game.new LYRICS) 'x' 'x' (by decide)

/-- C5: while `awaiting_restart` holds, submitting a space reports
`Restarted` and resets cursor to 0, health to 100 and the flag to false;
submitting any other character reports `Ignored` and changes nothing. -/
theorem C5_restart_gate (g : Game) (h : g.awaiting_restart = true) :
    ((g.process_char ' ').2 = StepResult.Restarted
      ∧ (g.process_char ' ').1.current_index = 0
      ∧ (g.process_char ' ').1.boss_hp = 100
      ∧ (g.process_char ' ').1.awaiting_restart = false)
      ∧ ∀ ch : Char, ch ≠ ' ' → g.process_char ch = (g, StepResult.Ignored) := by
  unfold Game.process_char
  simp [h, Game.reset]

/-- C5 witness: at the completed session, space restarts and `z` is ignored. -/
theorem C5_restart_gate_witness :
    (({ Game.new LYRICS with awaiting_restart := true, current_index := 66
        }.process_char ' ').2 = StepResult.Restarted
      ∧ ({ Game.new LYRICS with awaiting_restart := true, current_index := 66
        }.process_char ' ').1.current_index = 0
      ∧ ({ Game.new LYRICS with awaiting_restart := true, current_index := 66
        }.process_char ' ').1.boss_hp = 100
      ∧ ({ Game.new LYRICS with awaiting_restart := true, current_index := 66
        }.process_char ' ').1.awaiting_restart = false)
      ∧ { Game.new LYRICS with awaiting_restart := true, current_index := 66
        }.process_char 'z'
        = ({ Game.new LYRICS with awaiting_restart := true, current_index := 66 },
            StepResult.Ignored) := by
  have h := C5_restart_gate
    { Game.new LYRICS with awaiting_restart := true, current_index := 66 } rfl
  exact ⟨h.1, h.2 'z' (by decide)⟩

/-- C6: outside the restart gate, a line feed or carriage return is ignored
with no state change; and with the script not yet exhausted, a character in
the reserved composition ranges, or a non-space whitespace character while
the expected character is not a space, is likewise ignored. -/
theorem C6_filtered_inputs (g : Game) (ch : Char)
    (hA : g.awaiting_restart = false) :
    ((ch = '\n' ∨ ch = '\r') → g.process_char ch = (g, StepResult.Ignored))
      ∧ (g.current_index < g.text_chars.length →
          (Game.is_composing_char ch = true → g.process_char ch = (g, StepResult.Ignored))
          ∧ (rustIsWhitespace ch = true → ch ≠ ' ' → g.expected_char ≠ some ' ' →
              g.process_char ch = (g, StepResult.Ignored))) := by
  refine ⟨?_, fun hlt => ⟨?_, ?_⟩⟩
  · intro hnl
    unfold Game.process_char
    repeat' split
    all_goals simp_all
  · intro hcomp
    unfold Game.process_char
    repeat' split
    all_goals simp_all [Game.expected_char, List.getElem?_eq_none_iff]
  · intro hws hsp hexp
    unfold Game.process_char
    repeat' split
    all_goals simp_all [Game.expected_char, List.getElem?_eq_none_iff]

/-- C6 witness: at the fresh session, a line feed, the jamo `ᄀ` (U+1100)
and a tab (expected character `동` is not a space) are all ignored. -/
theorem C6_filtered_inputs_witness :
    (Game.new LYRICS).process_char '\n' = (Game.new LYRICS, StepResult.Ignored)
      ∧ (Game.new LYRICS).process_char (Char.ofNat 0x1100)
          = (Game.new LYRICS, StepResult.Ignored)
      ∧ (Game.new LYRICS).process_char '\t' = (Game.new LYRICS, StepResult.Ignored) := by
  refine ⟨?_, ?_, ?_⟩
  · exact (C6_filtered_inputs (Game.new LYRICS) '\n' rfl).1 (Or.inl rfl)
  · exact ((C6_filtered_inputs (Game.new LYRICS) (Char.ofNat 0x1100) rfl).2
      (by decide)).1 (by decide)
  · exact ((C6_filtered_inputs (Game.new LYRICS) '\t' rfl).2
      (by decide)).2 (by decide) (by decide) (by decide)

theorem goodState_new : GoodState (Game.new LYRICS) :=
  ⟨by decide, by decide, by decide, by decide⟩

theorem goodState_reset (g : Game) (hg : GoodState g) : GoodState g.reset := by
  obtain ⟨h1, h2, h3, h4⟩ := hg
  exact ⟨h1, h2, by simp [Game.reset], by simp [Game.reset]⟩

theorem goodState_process_char (g : Game) (ch : Char) (hg : GoodState g) :
    GoodState (g.process_char ch).1 := by
  obtain ⟨h1, h2, h3, h4⟩ := hg
  unfold Game.process_char
  repeat' split
  all_goals simp_all [GoodState, Game.reset, Game.expected_char, List.getElem?_eq_none_iff]
  all_goals omega

theorem reachable_goodState (g : Game) (hg : Reachable g) : GoodState g := by
  induction hg with
  | init => exact goodState_new
  | submit g ch _ ih => exact goodState_process_char g ch ih
  | restart g _ ih => exact goodState_reset g ih

/-- C3: in every state reachable by submits and resets, the cursor stays
between 0 and the script length N = 66, and the restart flag holds exactly
when the cursor equals N. -/
theorem C3_cursor_invariant (g : Game) (hg : Reachable g) :
    g.text_chars.length = 66 ∧ 0 ≤ g.current_index ∧ g.current_index ≤ 66
      ∧ (g.awaiting_restart = true ↔ g.current_index = 66) := by
  obtain ⟨h1, h2, h3, h4⟩ := reachable_goodState g hg
  exact ⟨h2, Nat.zero_le _, h3, h4⟩

/-- C3 witness: the invariant at the freshly constructed session. -/
theorem C3_cursor_invariant_witness :
    (Game.new LYRICS).text_chars.length = 66
      ∧ 0 ≤ (Game.new LYRICS).current_index
      ∧ (Game.new LYRICS).current_index ≤ 66
      ∧ ((Game.new LYRICS).awaiting_restart = true
          ↔ (Game.new LYRICS).current_index = 66) :=
  C3_cursor_invariant (Game.new LYRICS) Reachable.init

theorem new_boss_damage : (Game.new LYRICS).boss_damage = 100 / 66 := by
  have h66 : (LYRICS.map String.data).flatten.length = 66 := by decide
  show (100 : ℚ) / (((LYRICS.map String.data).flatten.length : Nat) : ℚ) = 100 / 66
  rw [h66]
  norm_num

/-- An accepted correct character: its full effect on the state. -/
theorem process_char_accept (g : Game) (c : Char)
    (hA : g.awaiting_restart = false)
    (hnl : ¬(c = '\n' ∨ c = '\r'))
    (hexp : g.expected_char = some c)
    (hcomp : Game.is_composing_char c = false)
    (hws : rustIsWhitespace c = true → c = ' ') :
    (g.process_char c).1.boss_hp = max (g.boss_hp - g.boss_damage) 0
      ∧ (g.process_char c).1.current_index = g.current_index + 1
      ∧ (g.process_char c).1.text_chars = g.text_chars
      ∧ (g.process_char c).1.total_chars = g.total_chars
      ∧ (g.process_char c).1.boss_damage = g.boss_damage
      ∧ (g.current_index + 1 < g.total_chars →
          (g.process_char c).1.awaiting_restart = false) := by
  unfold Game.process_char
  by_cases hw : rustIsWhitespace c = true
  · have hc := hws hw
    subst hc
    simp only [hA, hexp, hnl, hcomp]
    repeat' split
    all_goals simp_all
  · simp only [hA, hexp, hnl, hcomp, hw]
    repeat' split
    all_goals simp_all

/-- Running exactly the remaining script applies the clamped damage step
once per character. -/
theorem runChars_exact_hp (cs : List Char) : ∀ (g : Game),
    g.awaiting_restart = false →
    g.total_chars = g.text_chars.length →
    g.text_chars.drop g.current_index = cs →
    (∀ c ∈ cs, ¬(c = '\n' ∨ c = '\r') ∧ Game.is_composing_char c = false
        ∧ (rustIsWhitespace c = true → c = ' ')) →
    (runChars g cs).1.boss_hp
      = (fun h => max (h - g.boss_damage) 0)^[cs.length] g.boss_hp := by
  induction cs with
  | nil => intro g _ _ _ _; rfl
  | cons c cs ih =>
    intro g hA htot hdrop hok
    have hexp : g.expected_char = some c := by
      show g.text_chars[g.current_index]? = some c
      have h0 : (g.text_chars.drop g.current_index).head? = some c := by
        rw [hdrop]; rfl
      rwa [List.head?_drop] at h0
    obtain ⟨hnl, hcomp, hws⟩ := hok c (List.mem_cons_self c cs)
    have hstep := process_char_accept g c hA hnl hexp hcomp hws
    obtain ⟨hhp, hidx, htext, htotal, hdmg, hawait⟩ := hstep
    have hlen : g.text_chars.length = g.current_index + 1 + cs.length := by
      have := congrArg List.length hdrop
      rw [List.length_drop] at this
      have hlt : g.current_index < g.text_chars.length := by
        by_contra hge
        rw [Game.expected_char, List.getElem?_eq_none (by omega)] at hexp
        exact Option.noConfusion hexp
      simp at this
      omega
    have hdrop' : (g.process_char c).1.text_chars.drop
        (g.process_char c).1.current_index = cs := by
      rw [htext, hidx]
      have : g.text_chars.drop (g.current_index + 1)
          = (g.text_chars.drop g.current_index).drop 1 := by
        rw [List.drop_drop, Nat.add_comm]
      rw [this, hdrop]
      rfl
    show (runChars (g.process_char c).1 cs).1.boss_hp = _
    cases cs with
    | nil =>
      show (g.process_char c).1.boss_hp = _
      rw [hhp]
      rfl
    | cons c' cs' =>
      have hA' : (g.process_char c).1.awaiting_restart = false := by
        apply hawait
        rw [htot]
        simp [hlen]
      have h := ih (g.process_char c).1 hA'
        (by rw [htotal, htext, htot]) hdrop'
        (fun x hx => hok x (List.mem_cons_of_mem c hx))
      rw [h, hdmg, hhp]
      show (fun h => max (h - g.boss_damage) 0)^[(c' :: cs').length]
          (max (g.boss_hp - g.boss_damage) 0)
        = (fun h => max (h - g.boss_damage) 0)^[(c' :: cs').length + 1] g.boss_hp
      rw [Function.iterate_succ_apply]

/-- Starting from `n` times the damage, `n` clamped damage steps end at 0
(no clamping ever fires along the way). -/
theorem iterate_clamp_zero (d : ℚ) (hd : 0 ≤ d) (n : Nat) :
    (fun h => max (h - d) 0)^[n] ((n : ℚ) * d) = 0 := by
  induction n with
  | zero => simp
  | succ n ih =>
    have hcast : (((n + 1 : Nat)) : ℚ) = (n : ℚ) + 1 := by push_cast; ring
    rw [Function.iterate_succ_apply, hcast]
    have h1 : max (((n : ℚ) + 1) * d - d) 0 = (n : ℚ) * d := by
      rw [show ((n : ℚ) + 1) * d - d = (n : ℚ) * d by ring]
      exact max_eq_left (by positivity)
    show (fun h => max (h - d) 0)^[n] (max (((n : ℚ) + 1) * d - d) 0) = 0
    rw [h1]
    exact ih

/-- Submitting the whole fixed script drives the health to exactly 0. -/
theorem run_full_script_hp :
    (runChars (Game.new LYRICS) (Game.new LYRICS).text_chars).1.boss_hp = 0 := by
  have h := runChars_exact_hp (Game.new LYRICS).text_chars (Game.new LYRICS)
    rfl rfl rfl (by decide)
  rw [h, new_boss_damage]
  have hlen : (Game.new LYRICS).text_chars.length = 66 := by decide
  have hhp : (Game.new LYRICS).boss_hp = 100 := rfl
  rw [hlen, hhp]
  have h100 : (100 : ℚ) = ((66 : Nat) : ℚ) * (100 / 66) := by norm_num
  nth_rewrite 2 [h100]
  exact iterate_clamp_zero (100 / 66) (by norm_num) 66

/-- C7: a submission that advances the cursor subtracts exactly
`boss_damage` from the health, clamped at a floor of 0; otherwise (restart
apart) the health is unchanged; with nonnegative damage and health it is
monotonically non-increasing outside restarts and never becomes negative;
for the fixed script the damage is exactly 100/66, damage times the script
length is exactly 100, and the full run ends with health exactly 0. -/
theorem C7_health_accounting (g : Game) (ch : Char) :
    ((g.process_char ch).1.current_index = g.current_index + 1 →
        (g.process_char ch).1.boss_hp = max (g.boss_hp - g.boss_damage) 0)
      ∧ ((g.process_char ch).2 = StepResult.Restarted
          ∨ (g.process_char ch).1.boss_hp = g.boss_hp
          ∨ (g.process_char ch).1.boss_hp = max (g.boss_hp - g.boss_damage) 0)
      ∧ (0 ≤ g.boss_damage → 0 ≤ g.boss_hp →
          (g.process_char ch).2 ≠ StepResult.Restarted →
          (g.process_char ch).1.boss_hp ≤ g.boss_hp)
      ∧ (0 ≤ g.boss_hp → 0 ≤ (g.process_char ch).1.boss_hp)
      ∧ (Game.new LYRICS).boss_damage = 100 / 66
      ∧ (Game.new LYRICS).boss_damage * 66 = 100
      ∧ (runChars (Game.new LYRICS) (Game.new LYRICS).text_chars).1.boss_hp = 0 := by
  refine ⟨?_, ?_, ?_, ?_, new_boss_damage,
    by rw [new_boss_damage]; norm_num, run_full_script_hp⟩
  · unfold Game.process_char
    repeat' split
    all_goals simp_all [Game.reset]
  · unfold Game.process_char
    repeat' split
    all_goals simp [Game.reset]
  · intro hd hh hr
    revert hr
    unfold Game.process_char
    repeat' split
    all_goals intro hr
    all_goals simp_all [Game.reset]
  · intro hh
    unfold Game.process_char
    repeat' split
    all_goals simp_all [Game.reset]

/-- C7 witness: the first correct character takes the health from 100 to
`max (100 - 100/66) 0`, and the concrete damage facts hold. -/
theorem C7_health_accounting_witness :
    ((Game.new LYRICS).process_char '동').1.boss_hp
        = max ((Game.new LYRICS).boss_hp - (Game.new LYRICS).boss_damage) 0
      ∧ (0 : ℚ) ≤ ((Game.new LYRICS).process_char '동').1.boss_hp
      ∧ (Game.new LYRICS).boss_damage * 66 = 100 := by
  have h := C7_health_accounting (Game.new LYRICS) '동'
  have hhp : (0 : ℚ) ≤ (Game.new LYRICS).boss_hp := by
    rw [show (Game.new LYRICS).boss_hp = (100 : ℚ) from rfl]
    norm_num
  exact ⟨h.1 (by decide), h.2.2.2.1 hhp, h.2.2.2.2.2.1⟩

/-- C8: `line_state` returns the index map's (line, position) entry at the
cursor while the cursor is in range, and at completion returns the last
line's index with that line's full character count (3 and 18 here). -/
theorem C8_line_state (g : Game) :
    (∀ li pos, g.current_index < g.total_chars →
        g.char_meta[g.current_index]? = some (li, pos) →
        g.line_state = (li, pos))
      ∧ (g.current_index = g.total_chars →
          g.line_state
            = (LYRICS.length - 1, (LYRICS.getD (LYRICS.length - 1) "").data.length))
      ∧ LYRICS.length - 1 = 3
      ∧ (LYRICS.getD 3 "").data.length = 18 := by
  refine ⟨?_, ?_, by decide, by decide⟩
  · intro li pos hlt hsome
    unfold Game.line_state
    rw [if_neg (by omega)]
    simp [List.getD_eq_getElem?_getD, hsome]
  · intro heq
    unfold Game.line_state
    rw [if_pos (by omega)]

/-- C8 witness: the fresh session shows line 0, position 0; the completed
session shows the last line with its full length. -/
theorem C8_line_state_witness :
    (Game.new LYRICS).line_state = (0, 0)
      ∧ ({ Game.new LYRICS with current_index := 66 }).line_state
          = (LYRICS.length - 1, (LYRICS.getD (LYRICS.length - 1) "").data.length) := by
  refine ⟨?_, ?_⟩
  · exact (C8_line_state (Game.new LYRICS)).1 0 0 (by decide) (by decide)
  · exact (C8_line_state { Game.new LYRICS with current_index := 66 }).2.1 (by decide)

/-- C9 counterexample: a session constructed from a zero-length script has
`awaiting_restart = false`, so it is not already in the awaiting-restart
(victory) state the claim asserts. -/
theorem C9_counterexample :
    ¬ ((Game.new ([] : List String)).awaiting_restart = true) := by decide

/-- C9 (amended): constructing with a zero-length script raises no error:
cursor = 0 = N, yet `awaiting_restart` is false rather than true; the
session is behaviorally complete in that the first ordinary submission
reports `Victory` and only then sets the restart flag. In this exact
rational model the damage 100 / 0 evaluates to 0. -/
theorem C9_empty_script :
    (Game.new ([] : List String)).total_chars = 0
      ∧ (Game.new ([] : List String)).current_index = 0
      ∧ (Game.new ([] : List String)).awaiting_restart = false
      ∧ (Game.new ([] : List String)).boss_damage = 0
      ∧ ((Game.new ([] : List String)).process_char 'a').2 = StepResult.Victory
      ∧ ((Game.new ([] : List String)).process_char 'a').1.awaiting_restart = true := by
  refine ⟨rfl, rfl, rfl, ?_, by decide, by decide⟩
  show (100 : ℚ) / ((0 : Nat) : ℚ) = 0
  norm_num

/-- A correct non-final character produces `Correct` with the full updated
state. -/
theorem process_char_correct (g : Game) (c : Char)
    (hA : g.awaiting_restart = false)
    (hnl : ¬(c = '\n' ∨ c = '\r'))
    (hexp : g.expected_char = some c)
    (hcomp : Game.is_composing_char c = false)
    (hws : rustIsWhitespace c = true → c = ' ')
    (hlt : g.current_index + 1 < g.total_chars) :
    g.process_char c
      = ({ g with
            current_index := g.current_index + 1
            boss_hp := max (g.boss_hp - g.boss_damage) 0
            message := "정확!" },
          StepResult.Correct) := by
  unfold Game.process_char
  repeat' split
  all_goals simp_all
  all_goals omega

/-- A mismatched unfiltered character produces `Wrong` and only changes the
message. -/
theorem process_char_wrong (g : Game) (c e : Char)
    (hA : g.awaiting_restart = false)
    (hnl : ¬(c = '\n' ∨ c = '\r'))
    (hexp : g.expected_char = some e)
    (hne : c ≠ e)
    (hcomp : Game.is_composing_char c = false)
    (hws2 : ¬(rustIsWhitespace c = true ∧ c ≠ ' ' ∧ e ≠ ' ')) :
    g.process_char c = ({ g with message := "틀렸습니다." }, StepResult.Wrong c) := by
  unfold Game.process_char
  repeat' split
  all_goals simp_all

/-- C10: outside the restart gate and with the fixed script not exhausted,
a space is never ignored: it is `Correct` (advancing the cursor and
applying damage) when the expected character is a space, and `Wrong ' '`
with only a message change otherwise. -/
theorem C10_space_mid_script (g : Game)
    (hA : g.awaiting_restart = false)
    (hT : g.text_chars = (Game.new LYRICS).text_chars)
    (hN : g.total_chars = 66)
    (hc : g.current_index < 66) :
    ((g.process_char ' ').2 = StepResult.Correct
        ∨ (g.process_char ' ').2 = StepResult.Wrong ' ')
      ∧ (g.expected_char = some ' ' →
          g.process_char ' '
            = ({ g with
                  current_index := g.current_index + 1
                  boss_hp := max (g.boss_hp - g.boss_damage) 0
                  message := "정확!" },
                StepResult.Correct))
      ∧ (∀ e, g.expected_char = some e → e ≠ ' ' →
          g.process_char ' '
            = ({ g with message := "틀렸습니다." }, StepResult.Wrong ' ')) := by
  have hlen : g.text_chars.length = 66 := by rw [hT]; decide
  have h65 : g.text_chars[65]? = some '세' := by rw [hT]; decide
  have hnl : ¬((' ' : Char) = '\n' ∨ (' ' : Char) = '\r') := by decide
  have hcomp : Game.is_composing_char ' ' = false := by decide
  cases hee : g.expected_char with
  | none =>
    exfalso
    rw [Game.expected_char, List.getElem?_eq_none_iff] at hee
    omega
  | some e =>
    by_cases hsp : e = ' '
    · subst hsp
      have hc65 : g.current_index ≠ 65 := by
        intro hix
        have hee' := hee
        rw [Game.expected_char, hix, h65] at hee'
        exact absurd hee' (by decide)
      have hlt2 : g.current_index + 1 < g.total_chars := by omega
      have hcor := process_char_correct g ' ' hA hnl hee hcomp (fun _ => rfl) hlt2
      refine ⟨Or.inl (by rw [hcor]), fun _ => hcor, ?_⟩
      intro e' hee' hne'
      exact absurd (Option.some.inj hee').symm hne'
    · have hne : (' ' : Char) ≠ e := fun h => hsp h.symm
      have hws2 : ¬(rustIsWhitespace ' ' = true ∧ (' ' : Char) ≠ ' ' ∧ e ≠ ' ') := by
        simp
      have hwr := process_char_wrong g ' ' e hA hnl hee hne hcomp hws2
      refine ⟨Or.inr (by rw [hwr]), ?_, ?_⟩
      · intro habs
        exact absurd (Option.some.inj habs) hsp
      · intro e' hee' hne'
        have he'e : e' = e := (Option.some.inj hee').symm
        subst he'e
        exact hwr

/-- C10 witness: at cursor 2 the expected character is a space, and the
space is accepted; at cursor 0 it is `Wrong`. -/
theorem C10_space_mid_script_witness :
    ({ Game.new LYRICS with current_index := 2 }.process_char ' ').2
        = StepResult.Correct
      ∧ (({ Game.new LYRICS with current_index := 0 }.process_char ' ').2
          = StepResult.Correct
        ∨ ({ Game.new LYRICS with current_index := 0 }.process_char ' ').2
          = StepResult.Wrong ' ') := by
  have h2 := C10_space_mid_script { Game.new LYRICS with current_index := 2 }
    rfl rfl rfl (by decide)
  have h0 := C10_space_mid_script { Game.new LYRICS with current_index := 0 }
    rfl rfl rfl (by decide)
  refine ⟨?_, h0.1⟩
  rw [h2.2.1 (by decide)]
